import Mathlib

/-!
Verification of the three routines in `src/examples/example.py`:
the `greet` function, the iterative `fibonacci` function, and the
`Rectangle` class.  Python integers are unbounded, so they are
modelled as `Int`; the printed text of `greet` is modelled as the
`String` it writes, paired with the Python return value (`None`,
modelled as `none`).
-/

/-- Embedding of Python's `range(a, b)`: the list of integers
`a, a+1, ..., b-1` (empty when `b ≤ a`). -/
def pyRange (a b : Int) : List Int :=
  (List.range (b - a).toNat).map (fun i : Nat => a + (i : Int))

/-- Embedding of `fibonacci` from `src/examples/example.py`:
`if n <= 1: return n`, otherwise fold the simultaneous assignment
`prev, curr = curr, prev + curr` over `range(2, n + 1)` starting from
`prev, curr = 0, 1`, and return `curr`. -/
def fibonacci (n : Int) : Int :=
  if n ≤ 1 then n
  else ((pyRange 2 (n + 1)).foldl
          (fun pc _ => (pc.2, pc.1 + pc.2)) ((0 : Int), (1 : Int))).2

/-- Embedding of `greet` from `src/examples/example.py`: the first
component is the text printed by `print(f"Hello, {name}!")`, the second
is the Python return value (`None`, as the function has no `return`). -/
def greet (name : String) : String × Option String :=
  ("Hello, " ++ name ++ "!", none)

/-- Embedding of the `Rectangle` class of `src/examples/example.py`:
`__init__` stores its two arguments unchanged as the attributes
`width` and `height`.  Python is untyped, so the attribute types are
parameters. -/
structure Rectangle (α β : Type) where
  width : α
  height : β

/-- Modelled from the spec: the iterative algorithm described in §4.2
for the case `n ≥ 2` — "iterates from 2 to n inclusive, maintaining a
pair (previous, current) initialized to (0, 1); each step replaces the
pair with (current, previous + current); after the loop, returns
current".  Iterating from 2 to n inclusive is `(n - 1).toNat` steps. -/
def specFibonacci (n : Int) : Int :=
  ((List.range (n - 1).toNat).foldl
    (fun pc _ => (pc.2, pc.1 + pc.2)) ((0 : Int), (1 : Int))).2

/-- The body of the simultaneous assignment `prev, curr = curr, prev + curr`
as a named step function (proof artifact). -/
def fibStep (pc : Int × Int) : Int × Int := (pc.2, pc.1 + pc.2)

/-- The mathematical Fibonacci sequence, standard recursive definition. -/
def fibNat : Nat → Int
  | 0 => 0
  | 1 => 1
  | k + 2 => fibNat k + fibNat (k + 1)

lemma pyRange_length (a b : Int) : (pyRange a b).length = (b - a).toNat := by
  unfold pyRange
  rw [List.length_map, List.length_range]

lemma foldl_pair_step {α : Type} (l : List α) (pc : Int × Int) :
    l.foldl (fun pc _ => (pc.2, pc.1 + pc.2)) pc = fibStep^[l.length] pc := by
  induction l generalizing pc with
  | nil => rfl
  | cons a l ih =>
      simpa [Function.iterate_succ_apply, fibStep] using ih (fibStep pc)

lemma iterate_fibStep (k : Nat) :
    fibStep^[k] ((0 : Int), (1 : Int)) = (fibNat k, fibNat (k + 1)) := by
  induction k with
  | zero => simp [fibNat]
  | succ k ih =>
      rw [Function.iterate_succ_apply', ih]
      simp [fibStep, fibNat]

lemma fibonacci_eq_fibNat (n : Int) (h : 0 ≤ n) :
    fibonacci n = fibNat n.toNat := by
  by_cases h1 : n ≤ 1
  · have hn : n = 0 ∨ n = 1 := by omega
    rcases hn with rfl | rfl
    · simp [fibonacci, fibNat]
    · simp [fibonacci, fibNat]
  · have h2 : 2 ≤ n := by omega
    have hlen : (pyRange 2 (n + 1)).length = (n - 1).toNat := by
      rw [pyRange_length]; congr 1; omega
    rw [fibonacci, if_neg h1, foldl_pair_step, hlen, iterate_fibStep]
    have : (n - 1).toNat + 1 = n.toNat := by omega
    rw [this]

lemma fibNat_nonneg (k : Nat) : 0 ≤ fibNat k := by
  induction k using Nat.strong_induction_on with
  | _ k ih =>
    match k with
    | 0 => simp [fibNat]
    | 1 => simp [fibNat]
    | k + 2 =>
        have h1 := ih k (by omega)
        have h2 := ih (k + 1) (by omega)
        simp only [fibNat]
        omega

lemma fibNat_le_succ (k : Nat) : fibNat k ≤ fibNat (k + 1) := by
  match k with
  | 0 => simp [fibNat]
  | k + 1 =>
      have h := fibNat_nonneg k
      simp only [fibNat]
      omega

lemma fibNat_mono {a b : Nat} (h : a ≤ b) : fibNat a ≤ fibNat b := by
  induction b with
  | zero =>
      have : a = 0 := by omega
      simp [this]
  | succ b ih =>
      rcases Nat.lt_or_ge a (b + 1) with hlt | hge
      · exact le_trans (ih (by omega)) (fibNat_le_succ b)
      · have : a = b + 1 := by omega
        simp [this]

/-- C1: for every integer `n ≥ 2`, `fibonacci n` equals
`fibonacci (n - 1) + fibonacci (n - 2)`: the iterative implementation
satisfies the standard Fibonacci recurrence. -/
theorem fibonacci_recurrence (n : Int) (h : 2 ≤ n) :
    fibonacci n = fibonacci (n - 1) + fibonacci (n - 2) := by
  rw [fibonacci_eq_fibNat n (by omega),
      fibonacci_eq_fibNat (n - 1) (by omega),
      fibonacci_eq_fibNat (n - 2) (by omega)]
  have e1 : n.toNat = (n - 2).toNat + 2 := by omega
  have e2 : (n - 1).toNat = (n - 2).toNat + 1 := by omega
  rw [e1, e2]
  simp only [fibNat]
  ring

/-- Witness for C1 at `n = 7`. -/
theorem fibonacci_recurrence_witness :
    fibonacci 7 = fibonacci 6 + fibonacci 5 := by
  have h := fibonacci_recurrence 7 (by decide)
  norm_num at h
  exact h

/-- C2: `fibonacci 0 = 0`, `fibonacci 1 = 1`, and in general every
`n ≤ 1` is returned unchanged without entering the loop. -/
theorem fibonacci_base_cases :
    fibonacci 0 = 0 ∧ fibonacci 1 = 1 ∧
    ∀ n : Int, n ≤ 1 → fibonacci n = n := by
  refine ⟨by decide, by decide, fun n hn => ?_⟩
  rw [fibonacci, if_pos hn]

/-- Witness for C2: the general branch applied at `n = -5`. -/
theorem fibonacci_base_cases_witness : fibonacci (-5) = -5 :=
  fibonacci_base_cases.2.2 (-5) (by decide)

/-- C3: for every name `s`, the text `greet` prints is exactly
`"Hello, " ++ s ++ "!"`, and `greet` returns no value (Python `None`). -/
theorem greet_output (s : String) :
    (greet s).1 = "Hello, " ++ s ++ "!" ∧ (greet s).2 = none :=
  ⟨rfl, rfl⟩

/-- C4: the `Rectangle` constructor stores its two arguments unchanged
in `width` and `height`; in particular `Rectangle(3, 4)` reads back
width `3` and height `4`. -/
theorem rectangle_constructor :
    (∀ (α β : Type) (w : α) (h : β),
      (Rectangle.mk w h).width = w ∧ (Rectangle.mk w h).height = h) ∧
    (Rectangle.mk (3 : Int) (4 : Int)).width = 3 ∧
    (Rectangle.mk (3 : Int) (4 : Int)).height = 4 :=
  ⟨fun _ _ _ _ => ⟨rfl, rfl⟩, rfl, rfl⟩

/-- C5: for every `n ≥ 2`, `fibonacci n` equals the result of the
algorithm described in the spec (pair `(0, 1)`, one step per index
from 2 to `n` inclusive, return the second component). -/
theorem fibonacci_refines_spec (n : Int) (h : 2 ≤ n) :
    fibonacci n = specFibonacci n := by
  have h1 : ¬ n ≤ 1 := by omega
  have hlen : (pyRange 2 (n + 1)).length = (n - 1).toNat := by
    rw [pyRange_length]; congr 1; omega
  rw [fibonacci, if_neg h1, specFibonacci, foldl_pair_step, foldl_pair_step,
      hlen, List.length_range]

/-- Witness for C5 at `n = 10`. -/
theorem fibonacci_refines_spec_witness : fibonacci 10 = specFibonacci 10 :=
  fibonacci_refines_spec 10 (by decide)

/-- C6: the concrete scenario `fibonacci 10 = 55`. -/
theorem fibonacci_ten : fibonacci 10 = 55 := by decide

/-- C7: `fibonacci` is deterministic: two calls with the same argument
yield the same result (the embedding is a pure function of `n`). -/
theorem fibonacci_deterministic (n₁ n₂ : Int) (h : n₁ = n₂) :
    fibonacci n₁ = fibonacci n₂ := by rw [h]

/-- Witness for C7 at `n = 9`. -/
theorem fibonacci_deterministic_witness : fibonacci 9 = fibonacci 9 :=
  fibonacci_deterministic 9 9 rfl

/-- C8: for `n ≥ 2` the loop ranges over `range(2, n + 1)`, which has
exactly `n - 1` elements, and `fibonacci n` is the result of iterating
the constant-space step (a single pair of scalars) exactly `n - 1`
times from `(0, 1)` — so the computation is linear-time and
constant-space, and total by construction. -/
theorem fibonacci_loop_iterations (n : Int) (h : 2 ≤ n) :
    ((pyRange 2 (n + 1)).length : Int) = n - 1 ∧
    fibonacci n = (fibStep^[(n - 1).toNat] ((0 : Int), (1 : Int))).2 := by
  have h1 : ¬ n ≤ 1 := by omega
  have hlen : (pyRange 2 (n + 1)).length = (n - 1).toNat := by
    rw [pyRange_length]; congr 1; omega
  constructor
  · rw [hlen]; omega
  · rw [fibonacci, if_neg h1, foldl_pair_step, hlen]

/-- Witness for C8 at `n = 5`. -/
theorem fibonacci_loop_iterations_witness :
    ((pyRange 2 6).length : Int) = 4 ∧
    fibonacci 5 = (fibStep^[4] ((0 : Int), (1 : Int))).2 := by
  have h := fibonacci_loop_iterations 5 (by decide)
  norm_num at h ⊢
  exact h

/-- C9: every negative `n` satisfies `n ≤ 1`, so `fibonacci` returns
it unchanged. -/
theorem fibonacci_negative (n : Int) (h : n < 0) : fibonacci n = n := by
  rw [fibonacci, if_pos (by omega)]

/-- Witness for C9 at `n = -3`. -/
theorem fibonacci_negative_witness : fibonacci (-3) = -3 :=
  fibonacci_negative (-3) (by decide)

/-- C10: on nonnegative inputs `fibonacci` is nonnegative and
monotonically nondecreasing: `0 ≤ m ≤ n` gives
`0 ≤ fibonacci m ≤ fibonacci n`. -/
theorem fibonacci_monotone (m n : Int) (h0 : 0 ≤ m) (h : m ≤ n) :
    0 ≤ fibonacci m ∧ fibonacci m ≤ fibonacci n := by
  rw [fibonacci_eq_fibNat m h0, fibonacci_eq_fibNat n (by omega)]
  exact ⟨fibNat_nonneg m.toNat, fibNat_mono (by omega)⟩

/-- Witness for C10 at `m = 2`, `n = 6`. -/
theorem fibonacci_monotone_witness :
    0 ≤ fibonacci 2 ∧ fibonacci 2 ≤ fibonacci 6 :=
  fibonacci_monotone 2 6 (by decide) (by decide)
